import Mathlib

/-!
Verification development for the Game-of-Grids patch generation engine
(`patches_creator.py`, `utils_file.py`, `config_file.py`).

The Python source is embedded shallowly over exact rational arithmetic:

* coordinates, areas and distances are `ℚ` (the float round-off of the
  source is not modelled; all claims are about the algorithmic content);
* the transcendental library calls are passed in explicitly:
  `cosF : ℚ → ℚ` models `lat ↦ math.cos(math.radians lat)` and
  `sqrtF : ℚ → ℚ` models `math.sqrt`;
* the external geometry/clustering collaborators (shapely's
  `convex_hull`, `buffer`, `intersects`, `intersection(..).area`, and
  sklearn's `DBSCAN`) are parameters of the embedding; theorems that
  depend on their behaviour take the corresponding facts (for example
  "a non-intersecting pair has intersection area 0") as hypotheses,
  and concrete instantiations supply values consistent with the real
  geometry of the inputs used;
* shapely's `polygon.centroid` is modelled by the standard area-centroid
  formula of a simple polygon, `polygon.area` by the shoelace formula,
  and `polygon.exterior.coords` by an explicit closed coordinate ring
  (first vertex equal to the last).
-/

set_option maxRecDepth 4000

/- The library seals the arithmetic of `ℚ` against unfolding; concrete
witnesses and counterexamples below evaluate the embedded pipeline on
explicit rationals with `decide`, which needs these definitions to
reduce. -/
attribute [local semireducible] Rat.add Rat.mul Rat.inv Rat.sub Rat.ofScientific

/-- A polygon exterior ring: the list of `(lon, lat)` vertices, closed
(first = last), as produced by shapely's `polygon.exterior.coords`. -/
abbrev PolyQ := List (ℚ × ℚ)

/-- Sum of `g` over consecutive vertex pairs: the shape of every
`for i in range(len(coords) - 1)` loop in `utils_file.py`. -/
def adjSum (g : ℚ × ℚ → ℚ × ℚ → ℚ) : List (ℚ × ℚ) → ℚ
  | p :: q :: rest => g p q + adjSum g (q :: rest)
  | _ => 0

/-- Cross term `x1*y2 - x2*y1` of the shoelace formula. -/
def cross (p q : ℚ × ℚ) : ℚ := p.1 * q.2 - q.1 * p.2

/-- `lastP p l` is the last element of `p :: l`. -/
def lastP : ℚ × ℚ → List (ℚ × ℚ) → ℚ × ℚ
  | p, [] => p
  | _, q :: t => lastP q t

/-- The ring is nonempty and closed (`ring[0] == ring[-1]`), the form in
which shapely hands out every polygon exterior. -/
def closedRing : PolyQ → Bool
  | [] => false
  | p :: t => decide (lastP p t = p)

/-- Shapely `polygon.area`: planar shoelace area of the ring, in the
units of the coordinates (degrees squared here).  Used by the source at
`cluster_polygon.area` in the overlap check. -/
def ringAreaAbs (polygon : PolyQ) : ℚ := |adjSum cross polygon| / 2

/-- First component sum `Σ(x_i+x_{i+1})·cross_i` of the polygon
area-centroid formula. -/
def cxSum (polygon : PolyQ) : ℚ :=
  adjSum (fun p q => (p.1 + q.1) * cross p q) polygon

/-- Second component sum `Σ(y_i+y_{i+1})·cross_i` of the polygon
area-centroid formula. -/
def cySum (polygon : PolyQ) : ℚ :=
  adjSum (fun p q => (p.2 + q.2) * cross p q) polygon

/-- Shapely `polygon.centroid`: the area centroid of a simple polygon,
`C = Σ(·_i+·_{i+1})·cross_i / (6A)` with `A = Σcross_i / 2` (hence the
`3 *` below).  Degenerate rings (signed area 0) divide by zero, which in
`ℚ` yields 0; no claim relies on shapely's behaviour on degenerate
polygons. -/
def centroidQ (polygon : PolyQ) : ℚ × ℚ :=
  let s := adjSum cross polygon
  (cxSum polygon / (3 * s), cySum polygon / (3 * s))

/-- `utils_file.km_to_degrees`: `cosF` models `lat ↦ cos(radians(lat))`. -/
def km_to_degrees (cosF : ℚ → ℚ) (km latitude : ℚ) : ℚ :=
  let km_per_degree_lat : ℚ := 111.32
  let km_per_degree_lon : ℚ := 111.32 * cosF latitude
  km / ((km_per_degree_lat + km_per_degree_lon) / 2)

/-- The conversion the spec prescribes for `kmToDegrees`: the distance
divided by the single average of the two degree-per-km factors. -/
def km_to_degrees_spec (cosF : ℚ → ℚ) (km latitude : ℚ) : ℚ :=
  km / ((111.32 + 111.32 * cosF latitude) / 2)

/-- `utils_file.calculate_area_km2`: project every vertex with the
centroid-latitude factors, then shoelace, then `abs(sum)/2`. -/
def calculate_area_km2 (cosF : ℚ → ℚ) (polygon : PolyQ) : ℚ :=
  let lat := (centroidQ polygon).2
  let lat_factor : ℚ := 111.32
  let lon_factor : ℚ := 111.32 * cosF lat
  |adjSum (fun p q => p.1 * lon_factor * (q.2 * lat_factor)
      - q.1 * lon_factor * (p.2 * lat_factor)) polygon| / 2

/-- `utils_file.calculate_perimeter_km`: same projection, summed
Euclidean edge lengths (`sqrtF` models `math.sqrt`). -/
def calculate_perimeter_km (cosF sqrtF : ℚ → ℚ) (polygon : PolyQ) : ℚ :=
  let lat := (centroidQ polygon).2
  let lat_factor : ℚ := 111.32
  let lon_factor : ℚ := 111.32 * cosF lat
  adjSum (fun p q =>
    sqrtF (((q.1 - p.1) * lon_factor) ^ 2 + ((q.2 - p.2) * lat_factor) ^ 2)) polygon

/-- The affine map `v ↦ c + factor·(v - c)` applied per coordinate: the
translate / scale / translate-back body of the loop in
`utils_file.scale_polygon`. -/
def affineScale (c : ℚ × ℚ) (factor : ℚ) (v : ℚ × ℚ) : ℚ × ℚ :=
  ((v.1 - c.1) * factor + c.1, (v.2 - c.2) * factor + c.2)

/-- `utils_file.scale_polygon`: scale every vertex about the polygon
centroid by `factor`, in degree space. -/
def scale_polygon (polygon : PolyQ) (factor : ℚ) : PolyQ :=
  let centroid := centroidQ polygon
  polygon.map (affineScale centroid factor)

/-- Python `round(x, 3)` on exact rationals (round half to even). -/
def roundQ (x : ℚ) : ℚ :=
  let y := x * 1000
  let n := ⌊y⌋
  let r := y - n
  ((if r < 1 / 2 then n else if 1 / 2 < r then n + 1
    else if n % 2 = 0 then n else n + 1 : ℤ) : ℚ) / 1000

/-- `utils_file.calculate_priority`: priority from error density. -/
def calculate_priority (error_count : ℤ) (area_km2 : ℚ) : ℤ :=
  let error_density := (error_count : ℚ) / max area_km2 1
  if 5 < error_density then 9
  else if 3 < error_density then 7
  else if 1 < error_density then 5
  else 3

/-- `utils_file.calculate_difficulty`: difficulty from area and count. -/
def calculate_difficulty (area_km2 : ℚ) (error_count : ℤ) : String :=
  if 25 < area_km2 ∨ 30 < error_count then "hard"
  else if 15 < area_km2 ∨ 15 < error_count then "medium"
  else "easy"

/-- The spec's priority table, read off §4.6 of the spec:
`density = error_count / max(area_km2, 1)`; `density > 5 → 9`; `> 3 → 7`;
`> 1 → 5`; else `3`, first match winning. -/
def priority_spec (error_count : ℤ) (area_km2 : ℚ) : ℤ :=
  let density := (error_count : ℚ) / max area_km2 1
  if 5 < density then 9
  else if 3 < density then 7
  else if 1 < density then 5
  else 3

/-- The spec's difficulty table, read off §4.6 of the spec:
`area > 25 OR count > 30 → hard`; `area > 15 OR count > 15 → medium`;
else `easy`, first match winning, boundaries falling to the milder tier. -/
def difficulty_spec (area_km2 : ℚ) (error_count : ℤ) : String :=
  if 25 < area_km2 ∨ 30 < error_count then "hard"
  else if 15 < area_km2 ∨ 15 < error_count then "medium"
  else "easy"


/-- A raw row handed to `create_patches_from_errors` (from
`load_unprocessed_errors`); `error.get(...)` returning `None` for a
missing key is `none`.  `error_id` is `VARCHAR` in `db_schema.py`. The
remaining columns are opaque payload and are not modelled. -/
structure ErrRecord where
  error_id : Option String
  lon : Option ℚ
  lat : Option ℚ
deriving Repr, DecidableEq

/-- A validated error point as built in the filtering loop of
`create_patches_from_errors` (`{'id', 'lon', 'lat', ...}`; the shapely
`Point` and the raw record are determined by these fields). -/
structure EPoint where
  id : String
  lon : ℚ
  lat : ℚ
deriving Repr, DecidableEq

/-- The body of the filtering loop in `create_patches_from_errors`
(lines 81-93): `lat`, `lon` and `error_id` are fetched with `.get` and
the point is kept only `if lat and lon and error_id` — Python
truthiness, so a present-but-zero coordinate or an empty id is also
skipped. -/
def toEPoint? (e : ErrRecord) : Option EPoint :=
  match e.lat, e.lon, e.error_id with
  | some lat, some lon, some i =>
      if lat ≠ 0 ∧ lon ≠ 0 ∧ i ≠ "" then some ⟨i, lon, lat⟩ else none
  | _, _, _ => none

/-- A finalized patch record (the dict built at the end of
`_create_patch_from_errors`; the `'errors'` payload list is kept as the
member points). -/
structure Patch where
  geometry : PolyQ
  osmose_ids : List String
  area_km2 : ℚ
  perimeter_km : ℚ
  error_count : ℕ
  errors : List EPoint
  centroid : ℚ × ℚ
deriving Repr, DecidableEq

/-- The `PATCH_CONFIG` configuration surface of `config_file.py`. -/
structure PatchConfig where
  TARGET_PATCH_AREA_KM2 : ℚ
  MIN_PATCH_AREA_KM2 : ℚ
  MAX_PATCH_AREA_KM2 : ℚ
  CLUSTER_DISTANCE_KM : ℚ
  MIN_ERRORS_PER_PATCH : ℕ
  GRID_SIZE_KM : ℚ
  BUFFER_SIZE_KM : ℚ
  DEFAULT_PATCH_SIZE_KM : ℚ
deriving Repr, DecidableEq

/-- The concrete values of `PATCH_CONFIG` in `config_file.py`. -/
def PATCH_CONFIG : PatchConfig :=
  { TARGET_PATCH_AREA_KM2 := 15
    MIN_PATCH_AREA_KM2 := 5
    MAX_PATCH_AREA_KM2 := 30
    CLUSTER_DISTANCE_KM := 3
    MIN_ERRORS_PER_PATCH := 3
    GRID_SIZE_KM := 4
    BUFFER_SIZE_KM := 1
    DEFAULT_PATCH_SIZE_KM := 2 }

/-- The external mathematical / geometric collaborators of the engine,
passed in explicitly: `cosF` models `lat ↦ math.cos(math.radians lat)`,
`sqrtF` models `math.sqrt`, `hull` models shapely
`MultiPoint(points).convex_hull` (its exterior ring), and `buffer`
models shapely `polygon.buffer(distance_degrees)` (its exterior ring). -/
structure GeoFns where
  cosF : ℚ → ℚ
  sqrtF : ℚ → ℚ
  hull : List (ℚ × ℚ) → PolyQ
  buffer : PolyQ → ℚ → PolyQ

/-- Lexicographic comparison of character lists by code point — the
comparison Python uses between strings. -/
def charListLe : List Char → List Char → Bool
  | [], _ => true
  | _ :: _, [] => false
  | a :: as, b :: bs =>
    if a.toNat < b.toNat then true
    else if b.toNat < a.toNat then false
    else charListLe as bs

/-- `s <= t` on strings, by code points, as Python compares strings. -/
def strLeB (s t : String) : Bool := charListLe s.data t.data

/-- Python `sorted` on a list of strings: the unique weakly increasing
reordering under the code-point order. -/
def sortedStrings (l : List String) : List String :=
  List.insertionSort (fun a b => strLeB a b = true) l

/-- Shapely `box(minx, miny, maxx, maxy).exterior.coords`: the closed
counter-clockwise rectangle ring starting at `(maxx, miny)`. -/
def boxRing (minx miny maxx maxy : ℚ) : PolyQ :=
  [(maxx, miny), (maxx, maxy), (minx, maxy), (minx, miny), (maxx, miny)]

/-- Shapely `MultiPoint(points).centroid`: the arithmetic mean point. -/
def multipointCentroid (points : List (ℚ × ℚ)) : ℚ × ℚ :=
  ((points.map (·.1)).sum / points.length, (points.map (·.2)).sum / points.length)

/-- The polygon-size adjustment of `_create_patch_from_errors`
(lines 219-228): if the area is below `MIN_PATCH_AREA_KM2` or above
`MAX_PATCH_AREA_KM2`, scale once by `sqrt(TARGET_PATCH_AREA_KM2 / area)`
and recompute the area once; returns the final polygon and area. -/
def adjustPolygon (cosF sqrtF : ℚ → ℚ) (cfg : PatchConfig) (polygon : PolyQ) :
    PolyQ × ℚ :=
  let area_km2 := calculate_area_km2 cosF polygon
  if area_km2 < cfg.MIN_PATCH_AREA_KM2 then
    let scale_factor := sqrtF (cfg.TARGET_PATCH_AREA_KM2 / area_km2)
    let polygon2 := scale_polygon polygon scale_factor
    (polygon2, calculate_area_km2 cosF polygon2)
  else if cfg.MAX_PATCH_AREA_KM2 < area_km2 then
    let scale_factor := sqrtF (cfg.TARGET_PATCH_AREA_KM2 / area_km2)
    let polygon2 := scale_polygon polygon scale_factor
    (polygon2, calculate_area_km2 cosF polygon2)
  else (polygon, area_km2)

/-- The record construction at the end of `_create_patch_from_errors`
(lines 230-248), applied after the size adjustment. -/
def finishPatch (G : GeoFns) (cfg : PatchConfig) (error_points : List EPoint)
    (polygon0 : PolyQ) : Patch :=
  let pa := adjustPolygon G.cosF G.sqrtF cfg polygon0
  let polygon := pa.1
  let error_ids := error_points.map (·.id)
  { geometry := polygon
    osmose_ids := sortedStrings error_ids
    area_km2 := roundQ pa.2
    perimeter_km := roundQ (calculate_perimeter_km G.cosF G.sqrtF polygon)
    error_count := error_ids.length
    errors := error_points
    centroid := centroidQ polygon }

/-- `PatchesCreator._create_patch_from_errors`.  The `try/except`
produces `None` exactly where the pure model does: for an empty point
set without a base polygon (shapely raises on the bounds of an empty
`MultiPoint`); the remaining arithmetic is total. -/
def create_patch_from_errors (G : GeoFns) (cfg : PatchConfig)
    (error_points : List EPoint) (base_polygon : Option PolyQ) : Option Patch :=
  if error_points.length < cfg.MIN_ERRORS_PER_PATCH then none
  else
    let points := error_points.map fun e => (e.lon, e.lat)
    match base_polygon with
    | some polygon => some (finishPatch G cfg error_points polygon)
    | none =>
      if 3 ≤ points.length then
        let hull := G.hull points
        let buffer_degrees :=
          km_to_degrees G.cosF cfg.BUFFER_SIZE_KM (multipointCentroid points).2
        some (finishPatch G cfg error_points (G.buffer hull buffer_degrees))
      else
        match points with
        | [] => none
        | p0 :: rest =>
          let min_lon := rest.foldl (fun m v => min m v.1) p0.1
          let min_lat := rest.foldl (fun m v => min m v.2) p0.2
          let max_lon := rest.foldl (fun m v => max m v.1) p0.1
          let max_lat := rest.foldl (fun m v => max m v.2) p0.2
          let center_lon := (min_lon + max_lon) / 2
          let center_lat := (min_lat + max_lat) / 2
          let half_size :=
            km_to_degrees G.cosF cfg.DEFAULT_PATCH_SIZE_KM center_lat
          some (finishPatch G cfg error_points
            (boxRing (center_lon - half_size) (center_lat - half_size)
              (center_lon + half_size) (center_lat + half_size)))

/-- Point-in-cell test of the grid pass: shapely
`box(lon, lat, lon+g, lat+g).contains(point)` is true exactly when the
point lies in the open interior of the cell. -/
def cellContainsB (grid_size : ℚ) (origin p : ℚ × ℚ) : Bool :=
  decide (origin.1 < p.1 ∧ p.1 < origin.1 + grid_size ∧
    origin.2 < p.2 ∧ p.2 < origin.2 + grid_size)

/-- The cell polygon `box(lon, lat, lon + grid_size, lat + grid_size)`. -/
def cellRing (grid_size : ℚ) (origin : ℚ × ℚ) : PolyQ :=
  boxRing origin.1 origin.2 (origin.1 + grid_size) (origin.2 + grid_size)

/-- Number of iterations of `while v < vmax: ...; v += g` started at
`vmin`, for `g > 0`: the least `n` with `vmin + n·g ≥ vmax`. -/
def gridSteps (vmin vmax g : ℚ) : ℕ := (⌈(vmax - vmin) / g⌉).toNat

/-- The cell origins visited by the row-major double `while` loop of
`_create_grid_patches` (outer latitude, inner longitude), in visit
order; the k-th latitude row is `min_lat + k·g` exactly.  For `g ≤ 0`
the source loop would not terminate (or not run); the model is total
and theorems assume `0 < g`. -/
def gridCells (min_lon max_lon min_lat max_lat grid_size : ℚ) : List (ℚ × ℚ) :=
  (List.range (gridSteps min_lat max_lat grid_size)).flatMap fun j : ℕ =>
    (List.range (gridSteps min_lon max_lon grid_size)).map fun i : ℕ =>
      (min_lon + (i : ℚ) * grid_size, min_lat + (j : ℚ) * grid_size)

/-- One grid cell of `_create_grid_patches` (lines 127-137): collect the
points the cell contains; if at least `MIN_ERRORS_PER_PATCH`, build a
patch on the cell polygon. -/
def cellPatch (G : GeoFns) (cfg : PatchConfig) (error_points : List EPoint)
    (grid_size : ℚ) (origin : ℚ × ℚ) : Option Patch :=
  let cell_errors :=
    error_points.filter fun e => cellContainsB grid_size origin (e.lon, e.lat)
  if cfg.MIN_ERRORS_PER_PATCH ≤ cell_errors.length then
    create_patch_from_errors G cfg cell_errors (some (cellRing grid_size origin))
  else none

/-- The grid pass of `_create_grid_patches`: walk the cells in visit
order, appending each produced patch to the accumulator list. -/
def gridLoop (G : GeoFns) (cfg : PatchConfig) (error_points : List EPoint)
    (grid_size : ℚ) (cells : List (ℚ × ℚ)) : List Patch :=
  cells.foldl (fun patches origin =>
    patches ++ (cellPatch G cfg error_points grid_size origin).toList) []

/-- The per-patch overlap test of the cluster pass (lines 171-175):
`cluster_polygon.intersects(existing)` and, if so, whether
`intersection_area > 0.5 * cluster_polygon.area`.  `intersectsF` and
`interAreaF` model the shapely predicates. -/
def qualifiesOverlap (interAreaF : PolyQ → PolyQ → ℚ)
    (intersectsF : PolyQ → PolyQ → Bool) (cluster_polygon : PolyQ)
    (existing : Patch) : Bool :=
  intersectsF cluster_polygon existing.geometry &&
    decide (0.5 * ringAreaAbs cluster_polygon
      < interAreaF cluster_polygon existing.geometry)

/-- Processing of one cluster (lines 157-180): reject it if some
already-accepted patch overlaps its hull by more than half the hull's
area (the loop with `break` is the short-circuiting `List.any` over the
accepted patches in insertion order), otherwise build a hull patch and
append it to the working set. -/
def clusterStep (G : GeoFns) (cfg : PatchConfig)
    (interAreaF : PolyQ → PolyQ → ℚ) (intersectsF : PolyQ → PolyQ → Bool)
    (patches : List Patch) (cluster_errors : List EPoint) : List Patch :=
  let cluster_polygon := G.hull (cluster_errors.map fun e => (e.lon, e.lat))
  let overlap :=
    patches.any (qualifiesOverlap interAreaF intersectsF cluster_polygon)
  if overlap then patches
  else
    match create_patch_from_errors G cfg cluster_errors none with
    | some patch => patches ++ [patch]
    | none => patches

/-- The cluster pass: fold `clusterStep` over the clusters in their
deterministic iteration order, starting from the accepted grid patches. -/
def clusterFold (G : GeoFns) (cfg : PatchConfig)
    (interAreaF : PolyQ → PolyQ → ℚ) (intersectsF : PolyQ → PolyQ → Bool)
    (patches : List Patch) (clusters : List (List EPoint)) : List Patch :=
  clusters.foldl (clusterStep G cfg interAreaF intersectsF) patches

/-- `PatchesCreator._create_grid_patches`.  `clusterF` models sklearn
`DBSCAN(eps, min_samples).fit_predict` followed by the label-grouping
loop (lines 146-154): it receives `eps_degrees` and
`MIN_ERRORS_PER_PATCH` and returns the clusters (label ≥ 0) in
first-occurrence label order, each cluster's members in input order. -/
def create_grid_patches (G : GeoFns) (cfg : PatchConfig)
    (clusterF : ℚ → ℕ → List EPoint → List (List EPoint))
    (interAreaF : PolyQ → PolyQ → ℚ) (intersectsF : PolyQ → PolyQ → Bool)
    (error_points : List EPoint) (grid_size : ℚ) : List Patch :=
  match error_points with
  | [] => []
  | p0 :: rest =>
    let min_lon := rest.foldl (fun m e => min m e.lon) p0.lon
    let max_lon := rest.foldl (fun m e => max m e.lon) p0.lon
    let min_lat := rest.foldl (fun m e => min m e.lat) p0.lat
    let max_lat := rest.foldl (fun m e => max m e.lat) p0.lat
    let patches := gridLoop G cfg error_points grid_size
      (gridCells min_lon max_lon min_lat max_lat grid_size)
    let mean_lat := ((error_points.map (·.lat)).sum : ℚ) / error_points.length
    let eps_degrees := km_to_degrees G.cosF cfg.CLUSTER_DISTANCE_KM mean_lat
    let clusters := clusterF eps_degrees cfg.MIN_ERRORS_PER_PATCH error_points
    clusterFold G cfg interAreaF intersectsF patches clusters

/-- `PatchesCreator.create_patches_from_errors`: filter the raw records
by truthiness, bail out (returning `[]`, never raising) on an empty
result, then derive the grid size at the mean latitude and run
`_create_grid_patches`. -/
def create_patches_from_errors (G : GeoFns) (cfg : PatchConfig)
    (clusterF : ℚ → ℕ → List EPoint → List (List EPoint))
    (interAreaF : PolyQ → PolyQ → ℚ) (intersectsF : PolyQ → PolyQ → Bool)
    (errors : List ErrRecord) : List Patch :=
  match errors with
  | [] => []
  | _ :: _ =>
    let error_points := errors.filterMap toEPoint?
    match error_points with
    | [] => []
    | _ :: _ =>
      let avg_lat := ((error_points.map (·.lat)).sum : ℚ) / error_points.length
      let grid_size_degrees := km_to_degrees G.cosF cfg.GRID_SIZE_KM avg_lat
      create_grid_patches G cfg clusterF interAreaF intersectsF
        error_points grid_size_degrees

/-- `PatchesCreator._generate_patch_id`.  `digestF` models
`hashlib.md5(·.encode()).hexdigest()` (external, deterministic). -/
def generate_patch_id (country_code : String) (digestF : String → String)
    (osmose_ids : List String) : String :=
  let sorted_ids := sortedStrings osmose_ids
  if sorted_ids.length ≤ 3 then
    let short_ids := sorted_ids.map fun id_str =>
      if 8 < id_str.length ∧ id_str.contains '-' = true then id_str.take 8
      else id_str
    country_code ++ "_" ++ String.intercalate "_" short_ids
  else
    let hash_str := (digestF (String.intercalate "_" sorted_ids)).take 12
    country_code ++ "_MERGED_" ++ toString sorted_ids.length ++ "_" ++ hash_str

/-- The ID derivation prescribed by spec §4.6, over the lexicographically
sorted id set: for `count ≤ 3` each id is taken verbatim unless it is
longer than 8 characters and contains a `-`, in which case its first 8
characters are used; join with `_`, prefix the country code.  Otherwise
`{country}_MERGED_{count}_{first 12 hex chars of digest}`. -/
def patch_id_spec (country_code : String) (digestF : String → String)
    (osmose_ids : List String) : String :=
  let s := sortedStrings osmose_ids
  if s.length ≤ 3 then
    let shortened := s.map fun id_str =>
      if 8 < id_str.length ∧ id_str.contains '-' = true then id_str.take 8
      else id_str
    country_code ++ "_" ++ String.intercalate "_" shortened
  else
    country_code ++ "_MERGED_" ++ toString s.length ++ "_"
      ++ (digestF (String.intercalate "_" s)).take 12

/-- Two patches have disjoint member-id sets. -/
def idsDisjoint (p q : Patch) : Prop :=
  ∀ s ∈ p.osmose_ids, s ∉ q.osmose_ids

instance : DecidableRel idsDisjoint :=
  fun p q => List.decidableBAll (fun s => s ∉ q.osmose_ids) p.osmose_ids

/-- Concrete input for exercising `_create_grid_patches`: three points
strictly inside the first grid cell (for `grid_size = 2`), one point at
the bounding-box corner, and two points eight degrees further east. -/
def cex1Pts : List EPoint :=
  [⟨"z", 0, 0⟩, ⟨"a", 1/2, 1/2⟩, ⟨"b", 1/2, 1⟩, ⟨"c", 1, 1/2⟩,
   ⟨"d", 9, 1/2⟩, ⟨"e", 9, 1⟩]

/-- The convex hull shapely computes for the six points of `cex1Pts`:
the quadrilateral `(0,0), (9,1/2), (9,1), (1/2,1)` (the three interior
points `a`, `b`, `c` are not vertices), closed ring. -/
def cex1Hull : PolyQ := [(0, 0), (9, 1/2), (9, 1), (1/2, 1), (0, 0)]

/-- External functions for the `cex1Pts` run: the latitudes involved lie
in `[0, 1]`, where `cos(radians lat) ∈ (0.9998, 1]`; every branch
decision of the run (cell membership, the `0 ≤ area ≤ 10^6` size checks)
is robust to that factor, so `cosF` is taken to be the constant 1.
`sqrtF` is never consulted (no rescale fires).  `hull` is only queried
on the full six-point set, where it returns `cex1Hull`; `buffer` is only
queried with distance 0 (`BUFFER_SIZE_KM = 0`), where shapely returns
the polygon unchanged. -/
def cex1G : GeoFns := ⟨fun _ => 1, id, fun _ => cex1Hull, fun p _ => p⟩

/-- Configuration for the `cex1Pts` run: `MIN_ERRORS_PER_PATCH = 3`, a
size window `[0, 10^6]` wide enough that no rescale fires, a huge
cluster radius, and a zero buffer. -/
def cex1Cfg : PatchConfig := ⟨15, 0, 1000000, 10000, 3, 4, 0, 2⟩

/-- DBSCAN on `cex1Pts` with `eps_degrees ≈ 89.8`
(`CLUSTER_DISTANCE_KM = 10000` at mean latitude) and `min_samples = 3`:
all pairwise distances are below 9.1 degrees, so every point is a core
point of a single cluster containing all six points, in input order. -/
def cex1Cluster : ℚ → ℕ → List EPoint → List (List EPoint) := fun _ _ pts => [pts]

/-- The only intersection query of the `cex1Pts` run is the hull
`cex1Hull` against the first grid cell `[0,2] × [0,2]`; the exact
planar intersection area is `∫₀² (top - bottom) = 35/144 + 201/144
= 59/36` (hull bottom edge `y = x/18`, top `y = 2x` then `y = 1`). -/
def cex1InterArea : PolyQ → PolyQ → ℚ := fun _ _ => 59/36

/-- The hull and the first grid cell do intersect. -/
def cex1Intersects : PolyQ → PolyQ → Bool := fun _ _ => true

/-- A model of `lat ↦ cos(radians lat)` at latitude 0 (constant 1),
used by concrete witnesses. -/
def constOneCos : ℚ → ℚ := fun _ => 1

/-- An axis-aligned square ring of side `25/2783` degrees at the origin:
with `constOneCos` its `calculate_area_km2` is exactly 1. -/
def unitAreaSquare : PolyQ :=
  [(0, 0), (25/2783, 0), (25/2783, 25/2783), (0, 25/2783), (0, 0)]

/-- Configuration whose `[MIN, MAX]` window is the point `{1}` with
target 1: `unitAreaSquare` needs no rescale and `sqrt 1 = 1` is exact. -/
def w4Cfg : PatchConfig := ⟨1, 1, 1, 3, 3, 4, 1, 2⟩

/-- A fixed closed triangle ring, used as the constant value of the
hull/buffer collaborators in concrete witnesses. -/
def triRing : PolyQ := [(0, 0), (1, 0), (0, 1), (0, 0)]

/-- External functions for witnesses: every hull/buffer result is the
fixed closed ring `triRing`, so the closed-ring contracts hold. -/
def w5G : GeoFns := ⟨constOneCos, id, fun _ => triRing, fun _ _ => triRing⟩

/-- Three concrete error points with distinct ids. -/
def w5Pts : List EPoint := [⟨"a", 1/10, 1/10⟩, ⟨"b", 1/5, 1/10⟩, ⟨"c", 1/10, 1/5⟩]

/-- Configuration with `MIN_ERRORS_PER_PATCH = 3` and a `[0, 10^6]` size
window (no rescale fires on the witness geometry). -/
def w5Cfg : PatchConfig := ⟨15, 0, 1000000, 3, 3, 4, 1, 2⟩

/-- A trivially consistent pair of overlap collaborators: nothing
intersects and every intersection area is 0. -/
def zeroInterArea : PolyQ → PolyQ → ℚ := fun _ _ => 0

/-- Companion of `zeroInterArea`: the intersects predicate that is
always false. -/
def neverIntersects : PolyQ → PolyQ → Bool := fun _ _ => false

/-- A concrete deterministic digest stand-in for witnesses. -/
def digest0 : String → String := fun _ => "0123456789abcdef0123456789abcdef"

/-- The record with both coordinates and an id present but a zero
latitude. -/
def r0 : ErrRecord := ⟨some "123", some 7, some 0⟩

theorem adjSum_nil (g : ℚ × ℚ → ℚ × ℚ → ℚ) : adjSum g [] = 0 := rfl

theorem adjSum_one (g : ℚ × ℚ → ℚ × ℚ → ℚ) (p : ℚ × ℚ) : adjSum g [p] = 0 := rfl

theorem adjSum_cons₂ (g : ℚ × ℚ → ℚ × ℚ → ℚ) (p q : ℚ × ℚ) (t : List (ℚ × ℚ)) :
    adjSum g (p :: q :: t) = g p q + adjSum g (q :: t) := rfl

theorem lastP_nil (p : ℚ × ℚ) : lastP p [] = p := rfl

theorem lastP_cons (p q : ℚ × ℚ) (t : List (ℚ × ℚ)) :
    lastP p (q :: t) = lastP q t := rfl

theorem lastP_map (f : ℚ × ℚ → ℚ × ℚ) (p : ℚ × ℚ) (t : List (ℚ × ℚ)) :
    lastP (f p) (t.map f) = f (lastP p t) := by
  induction t generalizing p with
  | nil => rfl
  | cons q t ih => simpa [lastP_cons] using ih q

theorem adjSum_map (g : ℚ × ℚ → ℚ × ℚ → ℚ) (f : ℚ × ℚ → ℚ × ℚ) :
    ∀ l : List (ℚ × ℚ), adjSum g (l.map f) = adjSum (fun p q => g (f p) (f q)) l
  | [] => rfl
  | [_] => rfl
  | p :: q :: t => by
    simp only [List.map_cons, adjSum_cons₂]
    rw [← List.map_cons f q t, adjSum_map g f (q :: t)]

theorem adjSum_smul (k : ℚ) (g g0 : ℚ × ℚ → ℚ × ℚ → ℚ)
    (hg : ∀ p q, g p q = k * g0 p q) :
    ∀ l : List (ℚ × ℚ), adjSum g l = k * adjSum g0 l
  | [] => by simp [adjSum_nil]
  | [p] => by simp [adjSum_one]
  | p :: q :: t => by
    rw [adjSum_cons₂, adjSum_cons₂, hg, adjSum_smul k g g0 hg (q :: t)]
    ring

/-- Summing a pairwise function that is an affine combination of two
others plus a telescoping difference: the telescoping part collapses to
the head/last boundary term. -/
theorem adjSum_comb (a b : ℚ) (g1 g2 gP : ℚ × ℚ → ℚ × ℚ → ℚ) (h : ℚ × ℚ → ℚ)
    (hg : ∀ p q, gP p q = a * g1 p q + b * g2 p q + (h p - h q)) (p : ℚ × ℚ)
    (t : List (ℚ × ℚ)) :
    adjSum gP (p :: t) =
      a * adjSum g1 (p :: t) + b * adjSum g2 (p :: t) + (h p - h (lastP p t)) := by
  induction t generalizing p with
  | nil => simp [adjSum_one, lastP_nil]
  | cons q t ih =>
    rw [adjSum_cons₂, hg p q, ih q, adjSum_cons₂ g1, adjSum_cons₂ g2, lastP_cons]
    ring

theorem closedRing_cons {p : ℚ × ℚ} {t : List (ℚ × ℚ)} :
    closedRing (p :: t) = true ↔ lastP p t = p := by
  simp [closedRing]

theorem closedRing_map {l : PolyQ} (f : ℚ × ℚ → ℚ × ℚ)
    (hl : closedRing l = true) : closedRing (l.map f) = true := by
  cases l with
  | nil => simp [closedRing] at hl
  | cons p t =>
    rw [closedRing_cons] at hl
    simp only [List.map_cons, closedRing_cons, lastP_map, hl]

theorem closedRing_scale {l : PolyQ} (factor : ℚ)
    (hl : closedRing l = true) : closedRing (scale_polygon l factor) = true :=
  closedRing_map _ hl

theorem boxRing_closed (minx miny maxx maxy : ℚ) :
    closedRing (boxRing minx miny maxx maxy) = true := by
  simp [boxRing, closedRing_cons, lastP]

theorem cellRing_closed (g : ℚ) (o : ℚ × ℚ) :
    closedRing (cellRing g o) = true := boxRing_closed _ _ _ _

/-- The projected shoelace sum of `calculate_area_km2` factors as
`lon_factor * lat_factor` times the raw degree-space shoelace sum. -/
theorem calculate_area_eq (cosF : ℚ → ℚ) (polygon : PolyQ) :
    calculate_area_km2 cosF polygon =
      |111.32 * cosF ((centroidQ polygon).2) * 111.32 * adjSum cross polygon| / 2 := by
  have h := adjSum_smul (111.32 * cosF ((centroidQ polygon).2) * 111.32)
    (fun p q => p.1 * (111.32 * cosF ((centroidQ polygon).2)) * (q.2 * (111.32 : ℚ))
      - q.1 * (111.32 * cosF ((centroidQ polygon).2)) * (p.2 * 111.32)) cross
    (fun p q => by unfold cross; ring) polygon
  show (|adjSum (fun p q =>
      p.1 * (111.32 * cosF ((centroidQ polygon).2)) * (q.2 * (111.32 : ℚ))
        - q.1 * (111.32 * cosF ((centroidQ polygon).2)) * (p.2 * 111.32)) polygon| / 2) = _
  rw [h]

/-- Cross term of two affinely scaled points: `f²` times the original
cross term plus a telescoping part. -/
theorem cross_affine (c : ℚ × ℚ) (f : ℚ) (p q : ℚ × ℚ) :
    cross (affineScale c f p) (affineScale c f q) =
      f ^ 2 * cross p q + 0 * cross p q
        + ((fun v => f * (1 - f) * cross v c) p
          - (fun v => f * (1 - f) * cross v c) q) := by
  simp only [cross, affineScale]
  ring

/-- The degree-space shoelace sum of a closed ring scales by `f²` under
an affine scaling about any centre. -/
theorem adjSum_cross_scale (c : ℚ × ℚ) (f : ℚ) (p : ℚ × ℚ) (t : List (ℚ × ℚ))
    (hcl : lastP p t = p) :
    adjSum cross ((p :: t).map (affineScale c f)) = f ^ 2 * adjSum cross (p :: t) := by
  rw [adjSum_map]
  rw [adjSum_comb (f ^ 2) 0 cross cross _ (fun v => f * (1 - f) * cross v c)
    (cross_affine c f) p t]
  rw [hcl]
  ring

/-- `cxSum` of a closed ring under affine scaling about a centre `c`. -/
theorem cxSum_scale (c : ℚ × ℚ) (f : ℚ) (p : ℚ × ℚ) (t : List (ℚ × ℚ))
    (hcl : lastP p t = p) :
    cxSum ((p :: t).map (affineScale c f)) =
      f ^ 3 * cxSum (p :: t) + 3 * f ^ 2 * (1 - f) * c.1 * adjSum cross (p :: t) := by
  unfold cxSum
  rw [adjSum_map]
  rw [adjSum_comb (f ^ 3) (3 * f ^ 2 * (1 - f) * c.1)
    (fun a b => (a.1 + b.1) * cross a b) cross _
    (fun v => f ^ 2 * (1 - f) * v.1 * cross v c + 2 * f * (1 - f) ^ 2 * c.1 * cross v c)
    (fun a b => by simp only [cross, affineScale]; ring) p t]
  rw [hcl]
  ring

/-- `cySum` of a closed ring under affine scaling about a centre `c`. -/
theorem cySum_scale (c : ℚ × ℚ) (f : ℚ) (p : ℚ × ℚ) (t : List (ℚ × ℚ))
    (hcl : lastP p t = p) :
    cySum ((p :: t).map (affineScale c f)) =
      f ^ 3 * cySum (p :: t) + 3 * f ^ 2 * (1 - f) * c.2 * adjSum cross (p :: t) := by
  unfold cySum
  rw [adjSum_map]
  rw [adjSum_comb (f ^ 3) (3 * f ^ 2 * (1 - f) * c.2)
    (fun a b => (a.2 + b.2) * cross a b) cross _
    (fun v => f ^ 2 * (1 - f) * v.2 * cross v c + 2 * f * (1 - f) ^ 2 * c.2 * cross v c)
    (fun a b => by simp only [cross, affineScale]; ring) p t]
  rw [hcl]
  ring

theorem scale_polygon_eq_map (polygon : PolyQ) (factor : ℚ) :
    scale_polygon polygon factor = polygon.map (affineScale (centroidQ polygon) factor) := rfl

/-- Scaling a nondegenerate closed ring about its own area centroid
preserves the area centroid. -/
theorem centroidQ_scale {p : ℚ × ℚ} {t : List (ℚ × ℚ)} {f : ℚ}
    (hcl : lastP p t = p) (hS : adjSum cross (p :: t) ≠ 0) (hf : f ≠ 0) :
    centroidQ (scale_polygon (p :: t) f) = centroidQ (p :: t) := by
  rw [scale_polygon_eq_map]
  have hS' := adjSum_cross_scale (centroidQ (p :: t)) f p t hcl
  have hCX := cxSum_scale (centroidQ (p :: t)) f p t hcl
  have hCY := cySum_scale (centroidQ (p :: t)) f p t hcl
  have hc1 : (centroidQ (p :: t)).1 = cxSum (p :: t) / (3 * adjSum cross (p :: t)) := rfl
  have hc2 : (centroidQ (p :: t)).2 = cySum (p :: t) / (3 * adjSum cross (p :: t)) := rfl
  show (cxSum ((p :: t).map (affineScale (centroidQ (p :: t)) f))
      / (3 * adjSum cross ((p :: t).map (affineScale (centroidQ (p :: t)) f))),
    cySum ((p :: t).map (affineScale (centroidQ (p :: t)) f))
      / (3 * adjSum cross ((p :: t).map (affineScale (centroidQ (p :: t)) f)))) = _
  rw [hS', hCX, hCY, hc1, hc2]
  rw [Prod.ext_iff]
  constructor
  · show (f ^ 3 * cxSum (p :: t)
        + 3 * f ^ 2 * (1 - f) * (cxSum (p :: t) / (3 * adjSum cross (p :: t)))
          * adjSum cross (p :: t)) / (3 * (f ^ 2 * adjSum cross (p :: t)))
      = (centroidQ (p :: t)).1
    rw [hc1]
    field_simp
    ring
  · show (f ^ 3 * cySum (p :: t)
        + 3 * f ^ 2 * (1 - f) * (cySum (p :: t) / (3 * adjSum cross (p :: t)))
          * adjSum cross (p :: t)) / (3 * (f ^ 2 * adjSum cross (p :: t)))
      = (centroidQ (p :: t)).2
    rw [hc2]
    field_simp
    ring

/-- Heart of the rescale analysis: on a closed ring the computed km²
area scales exactly by `f²` (in exact rational arithmetic), for every
scale factor and every model of the cosine. -/
theorem area_km2_scale (cosF : ℚ → ℚ) (polygon : PolyQ) (f : ℚ)
    (hcl : closedRing polygon = true) :
    calculate_area_km2 cosF (scale_polygon polygon f) =
      f ^ 2 * calculate_area_km2 cosF polygon := by
  cases polygon with
  | nil => simp [closedRing] at hcl
  | cons p t =>
    rw [closedRing_cons] at hcl
    by_cases hS : adjSum cross (p :: t) = 0
    · rw [calculate_area_eq, calculate_area_eq, scale_polygon_eq_map,
        adjSum_cross_scale _ f p t hcl, hS]
      simp
    · by_cases hf : f = 0
      · rw [calculate_area_eq, calculate_area_eq, scale_polygon_eq_map,
          adjSum_cross_scale _ f p t hcl, hf]
        simp
      · rw [calculate_area_eq, calculate_area_eq]
        rw [centroidQ_scale hcl hS hf, scale_polygon_eq_map,
          adjSum_cross_scale _ f p t hcl]
        rw [show (111.32 : ℚ) * cosF ((centroidQ (p :: t)).2) * 111.32
              * (f ^ 2 * adjSum cross (p :: t))
            = f ^ 2 * (111.32 * cosF ((centroidQ (p :: t)).2) * 111.32
              * adjSum cross (p :: t)) from by ring]
        rw [abs_mul, abs_of_nonneg (by positivity : (0 : ℚ) ≤ f ^ 2)]
        ring

/-- Membership in the visited-cell list: exactly the row-major lattice
origins. -/
theorem mem_gridCells {min_lon max_lon min_lat max_lat g : ℚ} {c : ℚ × ℚ} :
    c ∈ gridCells min_lon max_lon min_lat max_lat g ↔
      ∃ j, j < gridSteps min_lat max_lat g ∧
        ∃ i, i < gridSteps min_lon max_lon g ∧
          (min_lon + i * g, min_lat + j * g) = c := by
  unfold gridCells
  simp only [List.mem_flatMap, List.mem_range, List.mem_map]

/-- One-dimensional disjointness of the half-open lattice intervals: a
value interior to the `i`-th and the `i2`-th interval forces `i = i2`. -/
theorem latticeInterval_inj {g x a : ℚ} (hg : 0 < g) {i i2 : ℕ}
    (h1 : a + i * g < x) (h2 : x < a + i * g + g)
    (h3 : a + i2 * g < x) (h4 : x < a + i2 * g + g) : i = i2 := by
  by_contra hne
  rcases Nat.lt_or_ge i i2 with h | h
  · have hle : (i : ℚ) + 1 ≤ (i2 : ℚ) := by exact_mod_cast h
    have hmul : ((i : ℚ) + 1) * g ≤ (i2 : ℚ) * g :=
      mul_le_mul_of_nonneg_right hle (le_of_lt hg)
    nlinarith
  · have h' : i2 < i := lt_of_le_of_ne h fun e => hne e.symm
    have hle : (i2 : ℚ) + 1 ≤ (i : ℚ) := by exact_mod_cast h'
    have hmul : ((i2 : ℚ) + 1) * g ≤ (i : ℚ) * g :=
      mul_le_mul_of_nonneg_right hle (le_of_lt hg)
    nlinarith

/-- Strict interiors of two lattice cells only meet when the cells
coincide. -/
theorem gridCell_interiors_disjoint {g : ℚ} (hg : 0 < g) {min_lon min_lat : ℚ}
    {i j i2 j2 : ℕ} {p : ℚ × ℚ}
    (h1 : cellContainsB g (min_lon + i * g, min_lat + j * g) p = true)
    (h2 : cellContainsB g (min_lon + i2 * g, min_lat + j2 * g) p = true) :
    i = i2 ∧ j = j2 := by
  simp only [cellContainsB, decide_eq_true_eq] at h1 h2
  obtain ⟨a1, a2, a3, a4⟩ := h1
  obtain ⟨b1, b2, b3, b4⟩ := h2
  exact ⟨latticeInterval_inj hg a1 a2 b1 b2, latticeInterval_inj hg a3 a4 b3 b4⟩

/-- The visited-cell list has no repeated origin when the step is
positive. -/
theorem gridCells_nodup {min_lon max_lon min_lat max_lat g : ℚ} (hg : 0 < g) :
    (gridCells min_lon max_lon min_lat max_lat g).Nodup := by
  unfold gridCells
  rw [List.nodup_flatMap]
  constructor
  · intro j _
    have hinj : Function.Injective
        (fun i : ℕ => ((min_lon + (i : ℚ) * g, min_lat + (j : ℚ) * g) : ℚ × ℚ)) := by
      intro i i2 he
      have hx : min_lon + (i : ℚ) * g = min_lon + (i2 : ℚ) * g :=
        congrArg Prod.fst he
      have : (i : ℚ) = (i2 : ℚ) :=
        mul_right_cancel₀ (ne_of_gt hg) (by linarith)
      exact_mod_cast this
    exact List.Nodup.map hinj (List.nodup_range _)
  · refine List.Pairwise.imp_of_mem ?_ (List.pairwise_lt_range _)
    intro j j2 _ _ hlt x hx1 hx2
    simp only [List.mem_map, List.mem_range] at hx1 hx2
    obtain ⟨i, _, hi⟩ := hx1
    obtain ⟨i2, _, hi2⟩ := hx2
    have hy : min_lat + (j : ℚ) * g = min_lat + (j2 : ℚ) * g := by
      rw [← hi] at hi2
      exact (congrArg Prod.snd hi2).symm
    have : (j : ℚ) = (j2 : ℚ) :=
      mul_right_cancel₀ (ne_of_gt hg) (by linarith)
    have : j = j2 := by exact_mod_cast this
    omega

/-- Folding "append the produced patch" equals `filterMap`. -/
theorem foldl_append_toList {α β : Type} (f : α → Option β) :
    ∀ (l : List α) (acc : List β),
      l.foldl (fun ps c => ps ++ (f c).toList) acc = acc ++ l.filterMap f
  | [], acc => by simp
  | c :: t, acc => by
    rw [List.foldl_cons, foldl_append_toList f t]
    cases h : f c with
    | none => simp [List.filterMap_cons, h]
    | some b => simp [List.filterMap_cons, h]

theorem gridLoop_eq_filterMap (G : GeoFns) (cfg : PatchConfig)
    (error_points : List EPoint) (grid_size : ℚ) (cells : List (ℚ × ℚ)) :
    gridLoop G cfg error_points grid_size cells =
      cells.filterMap (cellPatch G cfg error_points grid_size) := by
  unfold gridLoop
  rw [foldl_append_toList]
  rfl

theorem finishPatch_osmose_ids (G : GeoFns) (cfg : PatchConfig)
    (error_points : List EPoint) (polygon0 : PolyQ) :
    (finishPatch G cfg error_points polygon0).osmose_ids =
      sortedStrings (error_points.map (·.id)) := rfl

theorem finishPatch_error_count (G : GeoFns) (cfg : PatchConfig)
    (error_points : List EPoint) (polygon0 : PolyQ) :
    (finishPatch G cfg error_points polygon0).error_count =
      error_points.length := by
  show (error_points.map (·.id)).length = _
  exact List.length_map _ _

theorem finishPatch_geometry (G : GeoFns) (cfg : PatchConfig)
    (error_points : List EPoint) (polygon0 : PolyQ) :
    (finishPatch G cfg error_points polygon0).geometry =
      (adjustPolygon G.cosF G.sqrtF cfg polygon0).1 := rfl

/-- The size adjustment returns either the polygon itself or a scaled
copy; a closed ring stays closed. -/
theorem adjustPolygon_closed {cosF sqrtF : ℚ → ℚ} {cfg : PatchConfig}
    {polygon : PolyQ} (h : closedRing polygon = true) :
    closedRing (adjustPolygon cosF sqrtF cfg polygon).1 = true := by
  unfold adjustPolygon
  dsimp only
  split_ifs <;> first
    | exact closedRing_scale _ h
    | exact h

/-- Success shape of `_create_patch_from_errors`: the member-count guard
passed, and the patch is `finishPatch` applied to the supplied base
polygon, a buffered hull, or an explicit box. -/
theorem create_patch_shape {G : GeoFns} {cfg : PatchConfig}
    {error_points : List EPoint} {base_polygon : Option PolyQ} {p : Patch}
    (h : create_patch_from_errors G cfg error_points base_polygon = some p) :
    cfg.MIN_ERRORS_PER_PATCH ≤ error_points.length ∧
      ((∃ b, base_polygon = some b ∧ p = finishPatch G cfg error_points b) ∨
        (∃ ps d, p = finishPatch G cfg error_points (G.buffer ps d)) ∨
        (∃ x1 y1 x2 y2, p = finishPatch G cfg error_points (boxRing x1 y1 x2 y2))) := by
  unfold create_patch_from_errors at h
  by_cases hlen : error_points.length < cfg.MIN_ERRORS_PER_PATCH
  · rw [if_pos hlen] at h
    exact absurd h (by simp)
  · rw [if_neg hlen] at h
    refine ⟨Nat.le_of_not_lt hlen, ?_⟩
    cases base_polygon with
    | some b =>
      refine Or.inl ⟨b, rfl, ?_⟩
      simpa using h.symm
    | none =>
      simp only at h
      by_cases h3 : 3 ≤ (error_points.map fun e => (e.lon, e.lat)).length
      · rw [if_pos h3] at h
        exact Or.inr (Or.inl ⟨_, _, by simpa using h.symm⟩)
      · rw [if_neg h3] at h
        cases hm : error_points.map fun e => (e.lon, e.lat) with
        | nil => rw [hm] at h; exact absurd h (by simp)
        | cons p0 rest =>
          rw [hm] at h
          exact Or.inr (Or.inr ⟨_, _, _, _, by simpa using h.symm⟩)

theorem sortedStrings_length (l : List String) :
    (sortedStrings l).length = l.length := List.length_insertionSort _ _

theorem mem_sortedStrings {s : String} {l : List String} :
    s ∈ sortedStrings l ↔ s ∈ l := (List.perm_insertionSort _ l).mem_iff

/-- The code-point order on character lists is total. -/
theorem charListLe_total : ∀ x y : List Char,
    charListLe x y = true ∨ charListLe y x = true := by
  intro x
  induction x with
  | nil => intro y; left; rfl
  | cons a as ih =>
    intro y
    cases y with
    | nil => right; rfl
    | cons b bs =>
      rcases Nat.lt_trichotomy a.toNat b.toNat with h | h | h
      · left; simp [charListLe, h]
      · rcases ih bs with h2 | h2
        · left; simp [charListLe, h, h2]
        · right; simp [charListLe, h, h2]
      · right; simp [charListLe, h]

/-- The code-point order on character lists is transitive. -/
theorem charListLe_trans : ∀ x y z : List Char,
    charListLe x y = true → charListLe y z = true → charListLe x z = true := by
  intro x
  induction x with
  | nil => intro y z h1 h2; rfl
  | cons a as ih =>
    intro y z h1 h2
    cases y with
    | nil => simp [charListLe] at h1
    | cons b bs =>
      cases z with
      | nil => simp [charListLe] at h2
      | cons c cs =>
        rcases Nat.lt_trichotomy a.toNat b.toNat with hab | hab | hab <;>
          rcases Nat.lt_trichotomy b.toNat c.toNat with hbc | hbc | hbc
        · simp [charListLe, Nat.lt_trans hab hbc]
        · simp [charListLe, hbc ▸ hab]
        · simp [charListLe, hbc, Nat.lt_asymm hbc] at h2
        · simp [charListLe, hab ▸ hbc]
        · simp only [charListLe, hab, lt_self_iff_false, if_false] at h1
          simp only [charListLe, hbc, lt_self_iff_false, if_false] at h2
          simp [charListLe, (hab.trans hbc), ih bs cs h1 h2]
        · simp [charListLe, hbc, Nat.lt_asymm hbc] at h2
        · simp [charListLe, hab, Nat.lt_asymm hab] at h1
        · simp [charListLe, hab, Nat.lt_asymm hab] at h1
        · simp [charListLe, hab, Nat.lt_asymm hab] at h1

/-- The code-point order on character lists is antisymmetric. -/
theorem charListLe_antisymm : ∀ x y : List Char,
    charListLe x y = true → charListLe y x = true → x = y := by
  intro x
  induction x with
  | nil =>
    intro y h1 h2
    cases y with
    | nil => rfl
    | cons b bs => simp [charListLe] at h2
  | cons a as ih =>
    intro y h1 h2
    cases y with
    | nil => simp [charListLe] at h1
    | cons b bs =>
      rcases Nat.lt_trichotomy a.toNat b.toNat with hab | hab | hab
      · simp [charListLe, hab, Nat.lt_asymm hab] at h2
      · have hchar : a = b := Char.ext (UInt32.toNat.inj hab)
        simp only [charListLe, hab, lt_self_iff_false, if_false] at h1
        simp only [charListLe, hab.symm, lt_self_iff_false, if_false] at h2
        rw [hchar, ih bs h1 h2]
      · simp [charListLe, hab, Nat.lt_asymm hab] at h1

/-- Two lists that are permutations of one another sort identically. -/
theorem sortedStrings_perm_eq {l1 l2 : List String} (h : l1.Perm l2) :
    sortedStrings l1 = sortedStrings l2 := by
  haveI : IsTotal String (fun a b => strLeB a b = true) :=
    ⟨fun a b => charListLe_total a.data b.data⟩
  haveI : IsTrans String (fun a b => strLeB a b = true) :=
    ⟨fun a b c => charListLe_trans a.data b.data c.data⟩
  haveI : IsAntisymm String (fun a b => strLeB a b = true) :=
    ⟨fun a b h1 h2 => String.ext (charListLe_antisymm a.data b.data h1 h2)⟩
  exact List.eq_of_perm_of_sorted
    ((List.perm_insertionSort _ l1).trans (h.trans (List.perm_insertionSort _ l2).symm))
    (List.sorted_insertionSort _ l1) (List.sorted_insertionSort _ l2)

theorem create_patch_osmose_ids {G : GeoFns} {cfg : PatchConfig}
    {error_points : List EPoint} {base_polygon : Option PolyQ} {p : Patch}
    (h : create_patch_from_errors G cfg error_points base_polygon = some p) :
    p.osmose_ids = sortedStrings (error_points.map (·.id)) := by
  obtain ⟨-, hsh⟩ := create_patch_shape h
  rcases hsh with ⟨b, -, hp⟩ | ⟨ps, d, hp⟩ | ⟨x1, y1, x2, y2, hp⟩ <;>
    (subst hp; exact finishPatch_osmose_ids _ _ _ _)

theorem cellPatch_some_ids {G : GeoFns} {cfg : PatchConfig}
    {error_points : List EPoint} {grid_size : ℚ} {origin : ℚ × ℚ} {p : Patch}
    (h : cellPatch G cfg error_points grid_size origin = some p) :
    p.osmose_ids = sortedStrings
      ((error_points.filter fun e =>
        cellContainsB grid_size origin (e.lon, e.lat)).map (·.id)) := by
  unfold cellPatch at h
  by_cases hguard : cfg.MIN_ERRORS_PER_PATCH ≤
      (error_points.filter fun e =>
        cellContainsB grid_size origin (e.lon, e.lat)).length
  · rw [if_pos hguard] at h
    exact create_patch_osmose_ids h
  · rw [if_neg hguard] at h
    exact absurd h (by simp)

/-- Claim C9: `km_to_degrees(km, latitude)` equals `km` divided by the single
average of the latitude factor (111.32 km/deg) and the longitude factor
(111.32·cos(latitude) km/deg), i.e. `km / ((111.32 + 111.32·cosF lat)/2)`,
exactly as specified — proved for every value of the cosine model (hence
in particular whenever the denominator is nonzero, as the claim assumes;
over `ℚ` no nonzero hypothesis is even needed). -/
theorem c9_km_to_degrees_matches_spec :
    ∀ (cosF : ℚ → ℚ) (km latitude : ℚ),
      km_to_degrees cosF km latitude = km_to_degrees_spec cosF km latitude :=
  fun _ _ _ => rfl

/-- Claim C10: `calculate_priority` and `calculate_difficulty` implement the
spec's threshold tables with strict comparisons, first match winning
(`priority_spec` / `difficulty_spec` are the tables transcribed from the
spec), and at the exact boundary `calculate_difficulty 25 30` is
`"medium"`, not `"hard"`. -/
theorem c10_priority_difficulty_tables :
    (∀ (error_count : ℤ) (area_km2 : ℚ),
      calculate_priority error_count area_km2 = priority_spec error_count area_km2) ∧
    (∀ (area_km2 : ℚ) (error_count : ℤ),
      calculate_difficulty area_km2 error_count = difficulty_spec area_km2 error_count) ∧
    calculate_difficulty 25 30 = "medium" := by
  refine ⟨fun _ _ => rfl, fun _ _ => rfl, ?_⟩
  decide

/-- Claim C7: the derived patch ID is a function of the member id set only:
it is invariant under the order in which the ids are supplied (identical
id multisets give identical IDs, across runs, for any fixed digest), and
it follows the spec's format (`patch_id_spec`): country code plus the
`_`-joined shortened sorted ids for at most 3 ids (ids longer than 8
characters containing a `-` are cut to their first 8 characters), and
`{country}_MERGED_{count}_{first 12 digest chars}` otherwise. -/
theorem c7_patch_id_deterministic :
    (∀ (country : String) (digestF : String → String) (ids1 ids2 : List String),
      ids1.Perm ids2 →
        generate_patch_id country digestF ids1 = generate_patch_id country digestF ids2) ∧
    (∀ (country : String) (digestF : String → String) (ids : List String),
      generate_patch_id country digestF ids = patch_id_spec country digestF ids) := by
  constructor
  · intro country digestF ids1 ids2 hperm
    unfold generate_patch_id
    rw [sortedStrings_perm_eq hperm]
  · intro country digestF ids
    rfl

/-- Witness for C7: two concretely permuted id lists yield the same ID. -/
theorem c7_patch_id_witness :
    generate_patch_id "KZ" digest0 ["b", "a"] = generate_patch_id "KZ" digest0 ["a", "b"] :=
  c7_patch_id_deterministic.1 "KZ" digest0 ["b", "a"] ["a", "b"] (by decide)

/-- Claim C2, amended: a record is turned into an error point iff its `lat`,
`lon` and `error_id` are all present *and truthy* — nonzero coordinates
and a nonempty id; a record missing any of them, or carrying a zero
coordinate or empty id, is skipped.  Skipping is never fatal: the filter
is a total function into the retained list. -/
theorem c2_retention_is_truthiness :
    ∀ e : ErrRecord, (toEPoint? e).isSome = true ↔
      ((∃ x, e.lat = some x ∧ x ≠ 0) ∧ (∃ y, e.lon = some y ∧ y ≠ 0) ∧
        (∃ s, e.error_id = some s ∧ s ≠ "")) := by
  intro e
  obtain ⟨i, lo, la⟩ := e
  cases la <;> cases lo <;> cases i <;> simp [toEPoint?]

/-- Counterexample for C2: the record `r0` has an id and both
coordinates present, yet it is skipped (not retained for patch
generation), because its latitude is the falsy value 0. -/
theorem c2_counterexample :
    ([r0] : List ErrRecord).filterMap toEPoint? = [] ∧
      r0.lat.isSome = true ∧ r0.lon.isSome = true ∧ r0.error_id.isSome = true := by
  refine ⟨?_, rfl, rfl, rfl⟩
  decide

/-- Claim C6: in the grid pass a point is counted toward a cell iff it lies in
the cell's strict interior (shapely `contains` on the cell box), and
consequently no point is ever counted by two different visited cells: in
exact arithmetic the visited cells tile the plane with pairwise disjoint
open interiors. -/
theorem c6_cell_membership_strict_interior :
    ∀ (min_lon max_lon min_lat max_lat grid_size : ℚ) (pts : List EPoint)
      (e : EPoint) (c c1 c2 : ℚ × ℚ) (p : ℚ × ℚ), 0 < grid_size →
      ((e ∈ pts.filter fun e2 => cellContainsB grid_size c (e2.lon, e2.lat)) ↔
        (e ∈ pts ∧ c.1 < e.lon ∧ e.lon < c.1 + grid_size ∧
          c.2 < e.lat ∧ e.lat < c.2 + grid_size)) ∧
      (c1 ∈ gridCells min_lon max_lon min_lat max_lat grid_size →
        c2 ∈ gridCells min_lon max_lon min_lat max_lat grid_size → c1 ≠ c2 →
        ¬(cellContainsB grid_size c1 p = true ∧ cellContainsB grid_size c2 p = true)) := by
  intro min_lon max_lon min_lat max_lat g pts e c c1 c2 p hg
  constructor
  · simp [List.mem_filter, cellContainsB]
  · intro h1 h2 hne hp
    rw [mem_gridCells] at h1 h2
    obtain ⟨j, -, i, -, hc1⟩ := h1
    obtain ⟨j2, -, i2, -, hc2⟩ := h2
    rw [← hc1, ← hc2] at hp
    obtain ⟨hi, hj⟩ := gridCell_interiors_disjoint hg hp.1 hp.2
    exact hne (by rw [← hc1, ← hc2, hi, hj])

/-- Witness for C6 at a concrete grid: the cells `(0,0)` and `(2,0)` of
the `[0,9] × [0,1]` sweep with step 2 cannot both count the point
`(1/2, 1/2)`. -/
theorem c6_cell_membership_witness :
    ¬(cellContainsB 2 (0, 0) (1/2, 1/2) = true ∧
      cellContainsB 2 (2, 0) (1/2, 1/2) = true) :=
  (c6_cell_membership_strict_interior 0 9 0 1 2 [] ⟨"a", 1/2, 1/2⟩ (0, 0)
    (0, 0) (2, 0) (1/2, 1/2) (by norm_num)).2 (by decide) (by decide) (by decide)

/-- Claim C8: scaling a (closed, simple) polygon ring by `f > 0` and
recomputing `calculate_area_km2` multiplies the area exactly by `f²` in
exact rational arithmetic, for every model of the cosine — in
particular the claimed approximate relation holds well within the 1%
projection tolerance.  (`scale_polygon` scales every vertex about the
polygon centroid in degree space by definition.) -/
theorem c8_scaled_area_is_square_factor :
    ∀ (cosF : ℚ → ℚ) (polygon : PolyQ) (f : ℚ), 0 < f →
      closedRing polygon = true →
      calculate_area_km2 cosF (scale_polygon polygon f) =
        f ^ 2 * calculate_area_km2 cosF polygon :=
  fun cosF polygon f _ hcl => area_km2_scale cosF polygon f hcl

/-- Witness for C8: doubling the concrete unit-area square quadruples
its computed area. -/
theorem c8_scaled_area_witness :
    calculate_area_km2 constOneCos (scale_polygon unitAreaSquare 2) =
      2 ^ 2 * calculate_area_km2 constOneCos unitAreaSquare :=
  c8_scaled_area_is_square_factor constOneCos unitAreaSquare 2 (by norm_num) (by decide)

/-- Claim C4: under a consistent configuration
(`MIN_PATCH_AREA_KM2 ≤ TARGET_PATCH_AREA_KM2 ≤ MAX_PATCH_AREA_KM2`) and
a positive initial area, the single-pass rescale of
`_create_patch_from_errors` leaves the recomputed area inside
`[MIN_PATCH_AREA_KM2, MAX_PATCH_AREA_KM2]`: when the initial area is out
of bounds the polygon is scaled exactly once by
`sqrt(TARGET_PATCH_AREA_KM2 / area)` about its centroid, which in exact
arithmetic makes the recomputed area exactly the target (the exactness
of the square root is the hypothesis on `sqrtF`).  The area here is the
one the code computes before the 3-decimal display rounding of the
patch record. -/
theorem c4_adjusted_area_within_bounds :
    ∀ (cosF sqrtF : ℚ → ℚ) (cfg : PatchConfig) (polygon : PolyQ),
      closedRing polygon = true →
      cfg.MIN_PATCH_AREA_KM2 ≤ cfg.TARGET_PATCH_AREA_KM2 →
      cfg.TARGET_PATCH_AREA_KM2 ≤ cfg.MAX_PATCH_AREA_KM2 →
      0 < calculate_area_km2 cosF polygon →
      (sqrtF (cfg.TARGET_PATCH_AREA_KM2 / calculate_area_km2 cosF polygon)) ^ 2 =
        cfg.TARGET_PATCH_AREA_KM2 / calculate_area_km2 cosF polygon →
      cfg.MIN_PATCH_AREA_KM2 ≤ (adjustPolygon cosF sqrtF cfg polygon).2 ∧
        (adjustPolygon cosF sqrtF cfg polygon).2 ≤ cfg.MAX_PATCH_AREA_KM2 := by
  intro cosF sqrtF cfg polygon hcl hminT hTmax harea hsq
  unfold adjustPolygon
  dsimp only
  split_ifs with h1 h2
  · rw [area_km2_scale _ _ _ hcl, hsq, div_mul_cancel₀ _ (ne_of_gt harea)]
    exact ⟨hminT, hTmax⟩
  · rw [area_km2_scale _ _ _ hcl, hsq, div_mul_cancel₀ _ (ne_of_gt harea)]
    exact ⟨hminT, hTmax⟩
  · exact ⟨le_of_not_lt h1, le_of_not_lt h2⟩

/-- Witness for C4 at concrete data: the unit-area square under the
`MIN = TARGET = MAX = 1` configuration. -/
theorem c4_adjusted_area_witness :
    w4Cfg.MIN_PATCH_AREA_KM2 ≤ (adjustPolygon constOneCos id w4Cfg unitAreaSquare).2 ∧
      (adjustPolygon constOneCos id w4Cfg unitAreaSquare).2 ≤ w4Cfg.MAX_PATCH_AREA_KM2 :=
  c4_adjusted_area_within_bounds constOneCos id w4Cfg unitAreaSquare
    (by decide) (by decide) (by decide) (by decide) (by decide)

/-- Claim C5: every patch emitted by `_create_patch_from_errors` satisfies
`error_count = |osmose_ids|` (entry count), `error_count ≥
MIN_ERRORS_PER_PATCH` (the guard rejects smaller candidates, yielding no
patch), and its exterior ring is closed — given the shapely contracts
that buffered hulls and any supplied base polygon are closed rings. -/
theorem c5_emitted_patch_invariants :
    ∀ (G : GeoFns) (cfg : PatchConfig) (error_points : List EPoint)
      (base_polygon : Option PolyQ) (p : Patch),
      (∀ ps d, closedRing (G.buffer ps d) = true) →
      (∀ b, base_polygon = some b → closedRing b = true) →
      create_patch_from_errors G cfg error_points base_polygon = some p →
      p.error_count = p.osmose_ids.length ∧
        cfg.MIN_ERRORS_PER_PATCH ≤ p.error_count ∧
        closedRing p.geometry = true := by
  intro G cfg eps base p hbuf hbase h
  obtain ⟨hmin, hsh⟩ := create_patch_shape h
  have hcount : ∀ poly0 : PolyQ,
      (finishPatch G cfg eps poly0).error_count =
        (finishPatch G cfg eps poly0).osmose_ids.length := by
    intro poly0
    rw [finishPatch_error_count, finishPatch_osmose_ids, sortedStrings_length,
      List.length_map]
  have hgeom : ∀ poly0 : PolyQ, closedRing poly0 = true →
      closedRing (finishPatch G cfg eps poly0).geometry = true := by
    intro poly0 h0
    rw [finishPatch_geometry]
    exact adjustPolygon_closed h0
  rcases hsh with ⟨b, hb, hp⟩ | ⟨ps, d, hp⟩ | ⟨x1, y1, x2, y2, hp⟩
  · subst hp
    refine ⟨hcount b, ?_, hgeom b (hbase b hb)⟩
    rw [finishPatch_error_count]; exact hmin
  · subst hp
    refine ⟨hcount _, ?_, hgeom _ (hbuf ps d)⟩
    rw [finishPatch_error_count]; exact hmin
  · subst hp
    refine ⟨hcount _, ?_, hgeom _ (boxRing_closed x1 y1 x2 y2)⟩
    rw [finishPatch_error_count]; exact hmin

/-- Witness for C5: concrete three-point input under `w5G`/`w5Cfg`,
checked through `Option.all` on the produced patch. -/
theorem c5_emitted_patch_witness :
    (Option.all (fun p => decide (p.error_count = p.osmose_ids.length ∧
        w5Cfg.MIN_ERRORS_PER_PATCH ≤ p.error_count ∧
        closedRing p.geometry = true))
      (create_patch_from_errors w5G w5Cfg w5Pts none)) = true := by
  cases h : create_patch_from_errors w5G w5Cfg w5Pts none with
  | none => rfl
  | some p =>
    have hc := c5_emitted_patch_invariants w5G w5Cfg w5Pts none p
      (fun ps d => (by decide : closedRing triRing = true))
      (fun b hb => by cases hb) h
    simpa [Option.all] using hc

/-- Claim C3: a cluster candidate is rejected exactly when some
already-accepted patch — the working list `patches`, scanned in
insertion order by the short-circuiting `List.any` (all grid patches
first, then earlier-accepted cluster patches) — overlaps the cluster's
convex hull with intersection area strictly greater than half the
hull's own area; on rejection the working set is unchanged, on
acceptance the new patch (if construction succeeds) is appended, and the
fold hands the updated working set to the next cluster.  The hypothesis
is the shapely fact that non-intersecting polygons have intersection
area 0. -/
theorem c3_cluster_overlap_resolution :
    ∀ (G : GeoFns) (cfg : PatchConfig) (interAreaF : PolyQ → PolyQ → ℚ)
      (intersectsF : PolyQ → PolyQ → Bool) (patches : List Patch)
      (cluster_errors : List EPoint) (rest : List (List EPoint)),
      (∀ a b, intersectsF a b = false → interAreaF a b = 0) →
      ((patches.any (qualifiesOverlap interAreaF intersectsF
          (G.hull (cluster_errors.map fun e => (e.lon, e.lat)))) = true ↔
        ∃ pa ∈ patches,
          0.5 * ringAreaAbs (G.hull (cluster_errors.map fun e => (e.lon, e.lat))) <
            interAreaF (G.hull (cluster_errors.map fun e => (e.lon, e.lat)))
              pa.geometry) ∧
      (patches.any (qualifiesOverlap interAreaF intersectsF
          (G.hull (cluster_errors.map fun e => (e.lon, e.lat)))) = true →
        clusterStep G cfg interAreaF intersectsF patches cluster_errors = patches) ∧
      (patches.any (qualifiesOverlap interAreaF intersectsF
          (G.hull (cluster_errors.map fun e => (e.lon, e.lat)))) = false →
        clusterStep G cfg interAreaF intersectsF patches cluster_errors =
          patches ++ (create_patch_from_errors G cfg cluster_errors none).toList) ∧
      clusterFold G cfg interAreaF intersectsF patches (cluster_errors :: rest) =
        clusterFold G cfg interAreaF intersectsF
          (clusterStep G cfg interAreaF intersectsF patches cluster_errors) rest) := by
  intro G cfg interAreaF intersectsF patches cluster_errors rest hI
  refine ⟨?_, ?_, ?_, rfl⟩
  · rw [List.any_eq_true]
    constructor
    · rintro ⟨pa, hm, hq⟩
      rw [qualifiesOverlap, Bool.and_eq_true, decide_eq_true_eq] at hq
      exact ⟨pa, hm, hq.2⟩
    · rintro ⟨pa, hm, harea⟩
      refine ⟨pa, hm, ?_⟩
      rw [qualifiesOverlap, Bool.and_eq_true, decide_eq_true_eq]
      have hnn : (0 : ℚ) ≤
          0.5 * ringAreaAbs (G.hull (cluster_errors.map fun e => (e.lon, e.lat))) := by
        have h0 : (0 : ℚ) ≤
            ringAreaAbs (G.hull (cluster_errors.map fun e => (e.lon, e.lat))) := by
          unfold ringAreaAbs; positivity
        linarith
      refine ⟨?_, harea⟩
      by_contra hfalse
      rw [Bool.not_eq_true] at hfalse
      have h0 := hI _ _ hfalse
      rw [h0] at harea
      exact absurd (lt_of_le_of_lt hnn harea) (lt_irrefl 0)
  · intro hov
    simp only [clusterStep, hov, if_true]
  · intro hov
    cases hc : create_patch_from_errors G cfg cluster_errors none with
    | none => simp [clusterStep, hov, hc]
    | some patch => simp [clusterStep, hov, hc]

/-- Witness for C3 at concrete data: an empty working set rejects
nothing (the rejection iff at explicit inputs). -/
theorem c3_cluster_overlap_witness :
    ([] : List Patch).any (qualifiesOverlap zeroInterArea neverIntersects
        (w5G.hull (w5Pts.map fun e => (e.lon, e.lat)))) = true ↔
      ∃ pa ∈ ([] : List Patch),
        0.5 * ringAreaAbs (w5G.hull (w5Pts.map fun e => (e.lon, e.lat))) <
          zeroInterArea (w5G.hull (w5Pts.map fun e => (e.lon, e.lat))) pa.geometry :=
  (c3_cluster_overlap_resolution w5G w5Cfg zeroInterArea neverIntersects []
    w5Pts [] (fun _ _ _ => rfl)).1

/-- Claim C1, amended: within one run the *grid pass* never emits two patches
sharing a member error id — distinct visited cells have disjoint strict
interiors, so, when the input ids are pairwise distinct and the grid
step positive, the per-cell member sets have pairwise disjoint ids.  The
full `_create_grid_patches` output does *not* satisfy the original
claim: a cluster-derived patch may share member ids with an
already-accepted patch (see the counterexample), because the overlap
filter bounds geometric overlap (half the hull area), not membership. -/
theorem c1_grid_phase_ids_disjoint :
    ∀ (G : GeoFns) (cfg : PatchConfig) (error_points : List EPoint)
      (grid_size min_lon max_lon min_lat max_lat : ℚ),
      0 < grid_size → (error_points.map (·.id)).Nodup →
      (gridLoop G cfg error_points grid_size
        (gridCells min_lon max_lon min_lat max_lat grid_size)).Pairwise idsDisjoint := by
  intro G cfg eps g a b a2 b2 hg hnd
  rw [gridLoop_eq_filterMap, List.pairwise_filterMap]
  have hcells : (gridCells a b a2 b2 g).Nodup := gridCells_nodup hg
  refine List.Pairwise.imp_of_mem ?_ hcells
  intro c1 c2 hm1 hm2 hne pa hpa pb hpb
  rw [Option.mem_def] at hpa hpb
  intro s hs hs2
  rw [cellPatch_some_ids hpa, mem_sortedStrings, List.mem_map] at hs
  rw [cellPatch_some_ids hpb, mem_sortedStrings, List.mem_map] at hs2
  obtain ⟨e1, he1, hid1⟩ := hs
  obtain ⟨e2, he2, hid2⟩ := hs2
  rw [List.mem_filter] at he1 he2
  have heq : e1 = e2 := by
    apply List.inj_on_of_nodup_map hnd he1.1 he2.1
    rw [hid1, hid2]
  rw [mem_gridCells] at hm1 hm2
  obtain ⟨j, -, i, -, hc1⟩ := hm1
  obtain ⟨j2, -, i2, -, hc2⟩ := hm2
  have hin1 := he1.2
  have hin2 := he2.2
  rw [← heq] at hin2
  rw [← hc1] at hin1
  rw [← hc2] at hin2
  obtain ⟨hi, hj⟩ := gridCell_interiors_disjoint hg hin1 hin2
  exact hne (by rw [← hc1, ← hc2, hi, hj])

/-- Witness for the amended C1 at concrete data: the grid pass on
`cex1Pts` emits patches with pairwise disjoint id sets. -/
theorem c1_grid_phase_witness :
    (gridLoop cex1G cex1Cfg cex1Pts 2 (gridCells 0 9 0 1 2)).Pairwise idsDisjoint :=
  c1_grid_phase_ids_disjoint cex1G cex1Cfg cex1Pts 2 0 9 0 1
    (by norm_num) (by decide)

/-- Counterexample to C1 as stated: on the six-point input `cex1Pts`
with grid size 2, `_create_grid_patches` (with the documented concrete
values of its geometry collaborators) emits a grid patch over the ids
`a, b, c` and then accepts the single DBSCAN cluster of all six points
— its hull's intersection with the cell is `59/36`, well below half the
hull area `13/4` — emitting a second patch whose id set contains `a`,
`b`, `c` again: the output is not pairwise disjoint on `osmose_ids`. -/
theorem c1_counterexample :
    ¬ (create_grid_patches cex1G cex1Cfg cex1Cluster cex1InterArea cex1Intersects
        cex1Pts 2).Pairwise idsDisjoint := by
  decide
